import Mathlib

/-!
Verification development for the wexdownloader report-relay server
(pdf-webhook-server, v4.0 variant).

The JavaScript source is shallowly embedded as executable Lean
definitions.  Pure string processing (URL extraction, routing) is
translated regex-by-regex into recursive functions on lists of
characters.  The stateful pipeline (temp directory, browser context,
cleanup) is embedded as explicit state passing, with the fallible
external effects (Missive API fetch, per-attempt browser download,
per-attempt webhook POST) supplied as oracle environments so that
failures can be injected at every stage.  Timing (fixed 2 s backoff,
timeouts) is not modelled; only the sequence and count of attempts is.
-/

namespace Wex

/- ## Basic list-of-characters string utilities -/

/-- Membership test on a list of file names, mirroring a directory listing lookup. -/
def listHas : List String → String → Bool
  | [], _ => false
  | x :: xs, p => if x = p then true else listHas xs p

/-- Removal of the first occurrence of a file name, mirroring fs.unlink on a listing. -/
def listRemove : List String → String → List String
  | [], _ => []
  | x :: xs, p => if x = p then xs else x :: listRemove xs p

/-- A directory listing is well formed when no file name repeats. -/
def distinctL : List String → Bool
  | [] => true
  | x :: xs => !listHas xs x && distinctL xs

/-- Case sensitive startsWith on character lists. -/
def strStarts : List Char → List Char → Bool
  | _, [] => true
  | [], _ :: _ => false
  | c :: cs, p :: ps => c = p && strStarts cs ps

/-- Case insensitive startsWith on character lists, modelling a regex i flag. -/
def strStartsCI : List Char → List Char → Bool
  | _, [] => true
  | [], _ :: _ => false
  | c :: cs, p :: ps => c.toLower = p.toLower && strStartsCI cs ps

/-- Substring containment on character lists. -/
def containsL : List Char → List Char → Bool
  | [], p => p.isEmpty
  | c :: cs, p => strStarts (c :: cs) p || containsL cs p

/-- Substring containment with at least one character following the occurrence. -/
def containsFollowed : List Char → List Char → Bool
  | [], _ => false
  | c :: cs, p => (strStarts (c :: cs) p && decide (p.length < cs.length + 1)) || containsFollowed cs p

/-- Lowercasing of a character list, modelling JavaScript toLowerCase for ASCII data. -/
def lowerL (l : List Char) : List Char := l.map Char.toLower

/-- Lowercasing of a string. -/
def lowerStr (s : String) : String := String.mk (lowerL s.data)

/-- Substring containment on strings, modelling String.prototype.includes. -/
def containsSub (s pat : String) : Bool := containsL s.data pat.data

/- ## URL extraction, embedding extractDownloadUrl from the source

The source tries, in order:
1. body.match of the regex href="([^"]+)" and, on success, decodes the
   amp entity in the capture;
2. the labeled pattern Download at: followed by an anchor tag with an
   href attribute, case insensitive;
3. the global case-insensitive provider pattern for
   manage.fleetone.com URLs containing getJobFile;
4. the global case-insensitive pattern for URLs with a .pdf suffix.
For the two global patterns the source computes matches[1] or, if that
is absent, matches[0]: with the g flag String.prototype.match returns
the list of all full matches, so this selects the second overall match
when two or more exist, and the first match otherwise.
-/

/-- Literal href=" as a character list. -/
def hrefLit : List Char := "href=\"".data

/-- Literal download at: (lowercased) as a character list. -/
def dlAtLit : List Char := "download at:".data

/-- Literal opening anchor as a character list. -/
def anchorLit : List Char := "<a".data

/-- Literal provider URL stem (lowercased) as a character list. -/
def fleetLit : List Char := "https://manage.fleetone.com/".data

/-- Literal getjobfile (lowercased) as a character list. -/
def getJobLit : List Char := "getjobfile".data

/-- Literal .pdf (lowercased) as a character list. -/
def pdfLit : List Char := ".pdf".data

/-- Literal https scheme as a character list. -/
def httpsLit : List Char := "https://".data

/-- Literal http scheme as a character list. -/
def httpLit : List Char := "http://".data

/-- Decoding of the amp HTML entity, modelling replace of the global
regex for the entity by an ampersand: left to right, non overlapping,
the replacement character is not rescanned. -/
def decodeAmp : List Char → List Char
  | '&' :: 'a' :: 'm' :: 'p' :: ';' :: rest => '&' :: decodeAmp rest
  | c :: rest => c :: decodeAmp rest
  | [] => []

/-- Capture of the regex fragment ([^"]+)" at the current position: a
non empty run of non quote characters terminated by a quote. -/
def capAt (l : List Char) : Option (List Char) :=
  let cap := l.takeWhile (fun c => c ≠ '"')
  if cap.isEmpty then none
  else if cap.length < l.length then some cap else none

/-- Leftmost match of the regex href="([^"]+)" over the body, returning
the capture.  Positions are scanned left to right; at a position where
the literal matches but the capture fails, scanning resumes one
character further, as a backtracking regex engine does. -/
def hrefScan : List Char → Option (List Char)
  | [] => none
  | c :: cs =>
    if strStarts (c :: cs) hrefLit then
      match capAt ((c :: cs).drop 6) with
      | some cap => some cap
      | none => hrefScan cs
    else hrefScan cs

/-- Greedy search for the last position, below the given bound, where
the case insensitive literal href=" matches and its capture succeeds.
The bound is the length of the run of non gt characters matched by the
fragment before the href literal; greediness of that fragment makes
the regex engine keep the rightmost viable occurrence. -/
def lastHrefAux : List Char → Nat → Option (List Char) → Option (List Char)
  | _, 0, acc => acc
  | [], _ + 1, acc => acc
  | c :: cs, b + 1, acc =>
    let here := if strStartsCI (c :: cs) hrefLit then capAt ((c :: cs).drop 6) else none
    lastHrefAux cs b (match here with | some u => some u | none => acc)

/-- Leftmost match of the case insensitive labeled pattern: the literal
download at:, then maximal whitespace, then an anchor open tag, then a
greedy run of non gt characters, then href=" with a capture. -/
def scanDownloadAt : List Char → Option (List Char)
  | [] => none
  | c :: cs =>
    if strStartsCI (c :: cs) dlAtLit then
      let t1 := ((c :: cs).drop 12).dropWhile Char.isWhitespace
      if strStartsCI t1 anchorLit then
        let t2 := t1.drop 2
        match lastHrefAux t2 (t2.takeWhile (fun ch => ch ≠ '>')).length none with
        | some u => some u
        | none => scanDownloadAt cs
      else scanDownloadAt cs
    else scanDownloadAt cs

/-- Characters admitted by the URL body class of the two global
patterns: everything except whitespace, double quote, single quote and
angle brackets. -/
def urlChar (c : Char) : Bool :=
  !(c.isWhitespace || c = '"' || c = Char.ofNat 39 || c = '<' || c = '>')

/-- All matches of the global provider pattern, scanned left to right
without overlap.  A match starts at a case insensitive occurrence of
the provider stem; the greedy class runs extend to the end of the
maximal run of URL characters, and the match succeeds exactly when a
case insensitive getjobfile occurs inside that run with at least one
class character before it and one after it.  The fuel argument bounds
the recursion by the length of the remaining input. -/
def scanFleetFuel : Nat → List Char → List (List Char)
  | 0, _ => []
  | _ + 1, [] => []
  | fuel + 1, c :: cs =>
    if strStartsCI (c :: cs) fleetLit then
      let run := ((c :: cs).drop fleetLit.length).takeWhile urlChar
      if containsFollowed (lowerL (run.drop 1)) getJobLit then
        (c :: cs).take (fleetLit.length + run.length) ::
          scanFleetFuel fuel ((c :: cs).drop (fleetLit.length + run.length))
      else scanFleetFuel fuel cs
    else scanFleetFuel fuel cs

/-- All matches of the provider pattern over a string body. -/
def fleetMatches (s : String) : List String :=
  (scanFleetFuel s.data.length s.data).map String.mk

/-- All matches of the global pdf pattern, scanned left to right
without overlap.  A match starts at a case insensitive http or https
scheme (the optional s is greedy); the match succeeds exactly when a
case insensitive .pdf occurs inside the maximal URL character run with
at least one class character before it, and extends to the end of that
run. -/
def scanPdfFuel : Nat → List Char → List (List Char)
  | 0, _ => []
  | _ + 1, [] => []
  | fuel + 1, c :: cs =>
    if strStartsCI (c :: cs) httpsLit then
      let run := ((c :: cs).drop 8).takeWhile urlChar
      if containsL (lowerL (run.drop 1)) pdfLit then
        (c :: cs).take (8 + run.length) :: scanPdfFuel fuel ((c :: cs).drop (8 + run.length))
      else scanPdfFuel fuel cs
    else if strStartsCI (c :: cs) httpLit then
      let run := ((c :: cs).drop 7).takeWhile urlChar
      if containsL (lowerL (run.drop 1)) pdfLit then
        (c :: cs).take (7 + run.length) :: scanPdfFuel fuel ((c :: cs).drop (7 + run.length))
      else scanPdfFuel fuel cs
    else scanPdfFuel fuel cs

/-- All matches of the pdf pattern over a string body. -/
def pdfMatches (s : String) : List String :=
  (scanPdfFuel s.data.length s.data).map String.mk

/-- Selection of matches[1] or matches[0] from the list returned by a
global match: the second overall match when it exists, else the first. -/
def pickMatch : List String → Option String
  | [] => none
  | [m] => some m
  | _ :: m2 :: _ => some m2

/-- URL extraction from a message body string, embedding the pattern
cascade of extractDownloadUrl: the first pattern that matches wins and
later patterns are not consulted; every returned URL has the amp
entity decoded. -/
def extractFromBody (s : String) : Except String String :=
  match hrefScan s.data with
  | some u => Except.ok (String.mk (decodeAmp u))
  | none =>
    match scanDownloadAt s.data with
    | some u => Except.ok (String.mk (decodeAmp u))
    | none =>
      match pickMatch (fleetMatches s) with
      | some u => Except.ok (String.mk (decodeAmp u.data))
      | none =>
        match pickMatch (pdfMatches s) with
        | some u => Except.ok (String.mk (decodeAmp u.data))
        | none => Except.error "No download URL found in message body"

/- ## JSON-like values

Inbound payloads and Missive API responses are JSON documents.  The
claims only involve strings, arrays and objects, so the embedding
restricts JSON to those shapes.  Absent fields are modelled at the
Option level (undefined); truthiness follows JavaScript: the empty
string is falsy, every array and object is truthy. -/

inductive JVal where
  | jstr : String → JVal
  | jarr : List JVal → JVal
  | jobj : List (String × JVal) → JVal

/-- Field lookup in an object literal. -/
def lookupField : List (String × JVal) → String → Option JVal
  | [], _ => none
  | (k, v) :: rest, key => if k = key then some v else lookupField rest key

/-- Property access: objects yield their field (or undefined), strings
and arrays yield undefined for the property names used by the source. -/
def getField : JVal → String → Option JVal
  | .jobj fs, key => lookupField fs key
  | _, _ => none

/-- JavaScript truthiness of a value. -/
def truthyV : JVal → Bool
  | .jstr s => !s.isEmpty
  | .jarr _ => true
  | .jobj _ => true

/-- JavaScript truthiness of a possibly undefined value. -/
def truthyO : Option JVal → Bool
  | none => false
  | some v => truthyV v

/-- Optional chaining a?.key: undefined propagates, otherwise plain access. -/
def ochain (o : Option JVal) (key : String) : Option JVal :=
  match o with
  | none => none
  | some v => getField v key

/-- Array test, modelling Array.isArray. -/
def isArr : JVal → Bool
  | .jarr _ => true
  | _ => false

/-- First element of an array, undefined when empty or not an array. -/
def jarrHead : JVal → Option JVal
  | .jarr (x :: _) => some x
  | _ => none

/-- Embedding of the JavaScript expression x || the empty string: a
truthy value is kept, anything falsy or undefined becomes the empty
string. -/
def orEmptyStr (o : Option JVal) : JVal :=
  match o with
  | some v => if truthyV v then v else JVal.jstr ""
  | none => JVal.jstr ""

/- ## Message body selection, embedding the head of extractDownloadUrl -/

/-- Fallback branches of the body selection chain: message.body when
truthy, else the top level body field when truthy, else empty. -/
def selectBodyFallback (m : JVal) : JVal :=
  let mb := ochain (getField m "message") "body"
  if truthyO mb then orEmptyStr mb
  else
    let b := getField m "body"
    if truthyO b then orEmptyStr b else JVal.jstr ""

/-- Body selection chain of the source, in order: when the messages
field is a non array object its body field (or empty) is taken; when
it is a non empty array the body of its first element (or empty) is
taken; otherwise the fallback chain runs.  Branch selection depends on
the shape of the messages field, not on the emptiness of the bodies. -/
def selectBody (m : JVal) : JVal :=
  match getField m "messages" with
  | some msgs =>
    match msgs with
    | .jobj _ => orEmptyStr (getField msgs "body")
    | .jarr [] => selectBodyFallback m
    | .jarr (x :: _) => orEmptyStr (getField x "body")
    | .jstr _ => selectBodyFallback m
  | none => selectBodyFallback m

/-- Continuation of extractDownloadUrl once the body variable is fixed:
a falsy body raises the no-message-body error before any URL pattern
is consulted; a truthy string body enters the pattern cascade; a
truthy non string body would crash the match call at runtime, embedded
as a distinct error. -/
def extractFromBodyVal (body : JVal) : Except String String :=
  if truthyV body then
    match body with
    | .jstr s => extractFromBody s
    | _ => Except.error "TypeError: body.match is not a function"
  else Except.error "No message body found in Missive response"

/-- Embedding of extractDownloadUrl on a Missive response document. -/
def extractDownloadUrl (m : JVal) : Except String String :=
  extractFromBodyVal (selectBody m)

/- ## Routing, embedding determineWebhookConfig -/

/-- Environment configuration of the server.  Unset environment
variables are none; a set but empty variable is falsy in the source,
mirrored by optFalsy below. -/
structure Config where
  missiveApiKey : Option String
  fuelReportWebhook : Option String
  efsReportWebhook : Option String
  maxRetries : Nat

/-- JavaScript falsiness of an environment variable value. -/
def optFalsy : Option String → Bool
  | none => true
  | some s => s.isEmpty

/-- Embedding of determineWebhookConfig: the file name, lowercased,
containing the marker substring routes to the fuel report webhook with
label FuelReport, anything else to the EFS report webhook with label
EFSReport; a falsy selected endpoint raises the configuration error
naming the selected environment variable. -/
def determineWebhookConfig (cfg : Config) (fileName : String) : Except String (String × String) :=
  let isFuel := containsSub (lowerStr fileName) "grandtotalreport"
  let webhookUrl := if isFuel then cfg.fuelReportWebhook else cfg.efsReportWebhook
  let reportType := if isFuel then "FuelReport" else "EFSReport"
  if optFalsy webhookUrl then
    Except.error
      ((if reportType = "FuelReport" then "FUELREPORTWEBHOOK" else "EFSREPORTWEBHOOK")
        ++ " environment variable is not configured")
  else Except.ok (webhookUrl.getD "", reportType)

/- ## Download retry, embedding downloadWithRetry

The browser interaction of one attempt (arming the download listener,
navigating, waiting for the download event) is abstracted as an oracle
giving the outcome of the attempt with a given retries value.  The
structural recursion runs on the remaining retry budget, which equals
maxRetries minus retries in the source recursion; the guard retries
below maxRetries of the source is exactly the budget being non zero. -/

/-- Outcome of a successful browser download attempt. -/
structure DownloadResult where
  downloadPath : String
  fileName : String

/-- Retry recursion of downloadWithRetry, also counting the attempts
performed.  On success the result is returned at once; on failure with
budget left the next attempt runs (the source reloads the page and
waits the fixed backoff first, not modelled); with no budget left the
error of the last attempt is rethrown. -/
def downloadLoop (att : Nat → Except String DownloadResult) (retries budget : Nat) :
    Except String DownloadResult × Nat :=
  match att retries with
  | Except.ok r => (Except.ok r, 1)
  | Except.error e =>
    match budget with
    | 0 => (Except.error e, 1)
    | b + 1 =>
      let p := downloadLoop att (retries + 1) b
      (p.1, p.2 + 1)

/-- Embedding of downloadWithRetry with a given maxRetries and starting
retries value (the source calls it with retries zero). -/
def downloadWithRetry (maxRetries : Nat) (att : Nat → Except String DownloadResult)
    (retries : Nat) : Except String DownloadResult × Nat :=
  downloadLoop att retries (maxRetries - retries)

/- ## Relay retry, embedding the webhook while loop -/

/-- Retry loop of the webhook upload in processDownloadAsync, counting
attempts.  The oracle gives the outcome of the POST with a given
webhookRetries value; on success the upstream status code is returned;
when the incremented counter exceeds maxRetries the loop throws the
error whose message interpolates maxRetries (not the attempt count). -/
def relayAttemptLoop (maxRetries : Nat) (post : Nat → Except String Nat) (k budget : Nat) :
    Except String Nat × Nat :=
  match post k with
  | Except.ok st => (Except.ok st, 1)
  | Except.error e =>
    match budget with
    | 0 =>
      (Except.error ("Failed to send to webhook after " ++ toString maxRetries
        ++ " attempts: " ++ e), 1)
    | b + 1 =>
      let p := relayAttemptLoop maxRetries post (k + 1) b
      (p.1, p.2 + 1)

/-- The relay loop as entered by the source: counter zero, full budget. -/
def relayWithRetry (maxRetries : Nat) (post : Nat → Except String Nat) :
    Except String Nat × Nat :=
  relayAttemptLoop maxRetries post 0 maxRetries

/- ## Per-run resource state and the finally block of processDownloadAsync -/

/-- The four local variables of processDownloadAsync that the finally
block inspects: whether tempDir, page and context were assigned, and
the value of downloadPath when assigned. -/
structure Handles where
  tempDirVar : Bool
  downloadPathVar : Option String
  pageVar : Bool
  contextVar : Bool
deriving DecidableEq

/-- The on-disk and engine resources owned by one run: whether the
working directory exists, its file listing, and whether the page and
context of the run are open. -/
structure ResState where
  dirExists : Bool
  dirFiles : List String
  pageOpen : Bool
  contextOpen : Bool
deriving DecidableEq

/-- The state with no directory, no files and everything closed: both
the state before any resource is acquired and the required state after
release. -/
def cleanState : ResState := ⟨false, [], false, false⟩

/-- Embedding of fs.unlink on the working directory: fails with ENOENT
when the directory or the file is missing. -/
def fsUnlink (s : ResState) (p : String) : Except String ResState :=
  if s.dirExists && listHas s.dirFiles p then
    Except.ok { s with dirFiles := listRemove s.dirFiles p }
  else Except.error "ENOENT: no such file or directory"

/-- Embedding of the readdir, per-file unlink and rmdir sequence of the
finally block: fails with ENOENT when the directory is missing (the
readdir call throws and the catch skips the rmdir); otherwise every
remaining file is removed and the directory deleted. -/
def fsClearAndRemoveDir (s : ResState) : Except String ResState :=
  if s.dirExists then Except.ok { s with dirFiles := [], dirExists := false }
  else Except.error "ENOENT: no such file or directory"

/-- Closing the page of a run.  Playwright close on an already closed
page resolves without error, so the operation is total. -/
def closePage (s : ResState) : ResState := { s with pageOpen := false }

/-- Closing the context of a run; idempotent for the same reason. -/
def closeContext (s : ResState) : ResState := { s with contextOpen := false }

/-- Embedding of the finally block of processDownloadAsync.  Each
fallible filesystem step is wrapped in try/catch in the source, so a
failure leaves the state unchanged and execution continues; the page
and context close calls are total.  The whole block is therefore a
total function: invoking it never raises. -/
def cleanupRun (h : Handles) (s : ResState) : ResState :=
  let s1 :=
    match h.downloadPathVar with
    | some p =>
      match fsUnlink s p with
      | Except.ok t => t
      | Except.error _ => s
    | none => s
  let s2 :=
    if h.tempDirVar then
      match fsClearAndRemoveDir s1 with
      | Except.ok t => t
      | Except.error _ => s1
    else s1
  let s3 := if h.pageVar then closePage s2 else s2
  if h.contextVar then closeContext s3 else s3

/- ## The asynchronous pipeline, embedding processDownloadAsync -/

/-- Observable events of one run, used to state ordering properties. -/
inductive HttpResponse where
  | badRequest : String → String → HttpResponse
  | okAccepted : JVal → Option JVal → HttpResponse

inductive Ev where
  | responded : HttpResponse → Ev
  | fetched : Ev
  | fetchErr : Ev
  | extractErr : Ev
  | downloadAttempt : Nat → Ev
  | relayAttempt : Nat → String → Ev
  | cleanup : Ev

/-- Oracle environment of one run: the Missive fetch outcome, the per
attempt download outcomes and the per attempt webhook POST outcomes. -/
structure PipelineEnv where
  fetchResult : Except String JVal
  download : Nat → Except String DownloadResult
  post : Nat → Except String Nat

/-- Embedding of fetchMissiveMessage: a falsy API key throws the
configuration error before any call; an API failure is wrapped in the
fetch error message. -/
def fetchMissiveMessage (cfg : Config) (env : PipelineEnv) (_messageId : JVal) :
    Except String JVal :=
  if optFalsy cfg.missiveApiKey then Except.error "MISSIVE_API_KEY is not configured"
  else
    match env.fetchResult with
    | Except.ok d => Except.ok d
    | Except.error e => Except.error ("Failed to fetch message from Missive: " ++ e)

/-- Result of the try block of processDownloadAsync together with the
handle variables and resource state it leaves for the finally block,
the relay destination actually used (after the routing override), the
upstream status on success, and the event list. -/
structure BodyOut where
  outcome : Except String Unit
  h : Handles
  s : ResState
  relayDest : Option String
  relayStatus : Option Nat
  evs : List Ev

/-- Final observation of one run: resource state after the finally
block, logged outcome, relay destination and status, events. -/
structure PipelineResult where
  finalState : ResState
  outcome : Except String Unit
  relayDest : Option String
  relayStatus : Option Nat
  events : List Ev

/-- Relay stage of the try block: the webhookUrl variable now holds the
routed destination (overriding any caller supplied value), and the
upload loop runs against it; each attempt event carries the routed
destination. -/
def relayStage (cfg : Config) (env : PipelineEnv) (devs : List Ev) (art : DownloadResult)
    (cfgR : String × String) : BodyOut :=
  let r := relayWithRetry cfg.maxRetries env.post
  let revs := (List.range r.2).map (fun k => Ev.relayAttempt k cfgR.1)
  match r.1 with
  | Except.error e =>
    ⟨Except.error e, ⟨true, some art.downloadPath, true, true⟩,
      ⟨true, [art.downloadPath], true, true⟩, some cfgR.1, none, Ev.fetched :: (devs ++ revs)⟩
  | Except.ok st =>
    ⟨Except.ok (), ⟨true, some art.downloadPath, true, true⟩,
      ⟨true, [art.downloadPath], true, true⟩, some cfgR.1, some st, Ev.fetched :: (devs ++ revs)⟩

/-- Routing stage of the try block: the downloaded artifact is on disk
and its file name selects the destination; a routing failure aborts
with the artifact still to clean up. -/
def routeStage (cfg : Config) (env : PipelineEnv) (devs : List Ev) (art : DownloadResult) :
    BodyOut :=
  match determineWebhookConfig cfg art.fileName with
  | Except.error e =>
    ⟨Except.error e, ⟨true, some art.downloadPath, true, true⟩,
      ⟨true, [art.downloadPath], true, true⟩, none, none, Ev.fetched :: devs⟩
  | Except.ok cfgR => relayStage cfg env devs art cfgR

/-- Download stage of the try block: working directory created, context
and page opened, then the download retry loop; on success the artifact
sits inside the working directory. -/
def downloadStage (cfg : Config) (env : PipelineEnv) : BodyOut :=
  let d := downloadWithRetry cfg.maxRetries env.download 0
  let devs := (List.range d.2).map Ev.downloadAttempt
  match d.1 with
  | Except.error e =>
    ⟨Except.error e, ⟨true, none, true, true⟩, ⟨true, [], true, true⟩, none, none,
      Ev.fetched :: devs⟩
  | Except.ok art => routeStage cfg env devs art

/-- Embedding of the try block of processDownloadAsync, stage by stage:
read the caller supplied webhookUrl (dead after the routing override),
fetch the message, refresh the conversation id from the response,
extract the download URL, then run the download, routing and relay
stages.  A failure at any stage short circuits to the finally block
with the handles acquired so far. -/
def runBody (cfg : Config) (env : PipelineEnv) (requestData : JVal) (messageId : JVal)
    (conversationId : Option JVal) : BodyOut :=
  let _webhookUrlFromRequest : Option JVal :=
    if truthyO (getField requestData "webhookUrl") then getField requestData "webhookUrl"
    else none
  match fetchMissiveMessage cfg env messageId with
  | Except.error e => ⟨Except.error e, ⟨false, none, false, false⟩, cleanState, none, none, [Ev.fetchErr]⟩
  | Except.ok messageData =>
    let _conversationId2 : Option JVal :=
      if truthyO (ochain (ochain (getField messageData "messages") "conversation") "id") then
        ochain (ochain (getField messageData "messages") "conversation") "id"
      else conversationId
    match extractDownloadUrl messageData with
    | Except.error e =>
      ⟨Except.error e, ⟨false, none, false, false⟩, cleanState, none, none, [Ev.fetched, Ev.extractErr]⟩
    | Except.ok _downloadUrl => downloadStage cfg env

/-- Embedding of processDownloadAsync: the try block followed
unconditionally by the finally block.  Errors are caught and logged,
never rethrown to the caller. -/
def processDownloadAsync (cfg : Config) (env : PipelineEnv) (requestData : JVal)
    (messageId : JVal) (conversationId : Option JVal) : PipelineResult :=
  let b := runBody cfg env requestData messageId conversationId
  ⟨cleanupRun b.h b.s, b.outcome, b.relayDest, b.relayStatus, b.evs ++ [Ev.cleanup]⟩

/- ## The HTTP listener, embedding the processreport route handler -/

/-- Data handed to the asynchronous pipeline task by the listener. -/
structure TaskData where
  requestData : JVal
  messageId : JVal
  conversationId : Option JVal

/-- Response plus optional deferred pipeline task of the listener.  The
response is produced before the task runs; the task never feeds back
into the response. -/
structure HandlerOut where
  response : HttpResponse
  task : Option TaskData

/-- Message id lookup of the listener: latest_message.id when truthy,
else body.latest_message.id when truthy, else absent. -/
def pickMessageId (rd : JVal) : Option JVal :=
  let m1 := ochain (getField rd "latest_message") "id"
  if truthyO m1 then m1
  else
    let m2 := ochain (ochain (getField rd "body") "latest_message") "id"
    if truthyO m2 then m2 else none

/-- Conversation id lookup of the listener: conversation.id when
truthy, else body.conversation.id when truthy, else absent. -/
def pickConversationId (rd : JVal) : Option JVal :=
  let c1 := ochain (getField rd "conversation") "id"
  if truthyO c1 then c1
  else
    let c2 := ochain (ochain (getField rd "body") "conversation") "id"
    if truthyO c2 then c2 else none

/-- Embedding of the processreport route handler: an array payload is
replaced by its first element (an empty array yields undefined), a
falsy payload is rejected with the invalid format 400, a payload
without a message id under either accepted shape is rejected with the
missing id 400 and no task is created; otherwise the 200
acknowledgement carrying the message id and optional conversation id
is produced together with the deferred pipeline task. -/
def handleRequestData (rd : JVal) : HandlerOut :=
  if truthyV rd then
    match pickMessageId rd with
    | some mid =>
      ⟨HttpResponse.okAccepted mid (pickConversationId rd),
        some ⟨rd, mid, pickConversationId rd⟩⟩
    | none =>
      ⟨HttpResponse.badRequest "Missing message ID" "Could not find message ID in request", none⟩
  else ⟨HttpResponse.badRequest "Invalid request format" "Request body is empty or invalid", none⟩

def processReportHandler (reqBody : JVal) : HandlerOut :=
  match (if isArr reqBody then jarrHead reqBody else some reqBody) with
  | none => ⟨HttpResponse.badRequest "Invalid request format" "Request body is empty or invalid", none⟩
  | some rd => handleRequestData rd

/-- One full inbound request: response of the listener plus the result
of the deferred pipeline when a task was created. -/
structure SystemOut where
  response : HttpResponse
  pipeline : Option PipelineResult

/-- Running the listener and then the deferred pipeline. -/
def runProcessReport (cfg : Config) (env : PipelineEnv) (reqBody : JVal) : SystemOut :=
  let h := processReportHandler reqBody
  ⟨h.response,
    h.task.map (fun t => processDownloadAsync cfg env t.requestData t.messageId t.conversationId)⟩

/-- Event trace of one full inbound request: the acknowledgement is
emitted first, then the events of the deferred pipeline when present. -/
def systemTrace (cfg : Config) (env : PipelineEnv) (reqBody : JVal) : List Ev :=
  let h := processReportHandler reqBody
  Ev.responded h.response ::
    (match h.task with
     | some t => (processDownloadAsync cfg env t.requestData t.messageId t.conversationId).events
     | none => [])

/- ## Engine acquisition under concurrency, embedding initBrowser

The source checks the global browser reference synchronously, then
suspends at the launch await, then assigns and returns in one further
synchronous block.  Interleaving of two concurrent calls is modelled at
these await boundaries: a step of a ready task performs the check (and,
when the reference is absent, starts a launch, which is where a
creation is counted); a step of a launching task performs the
assignment and returns the just assigned reference. -/

inductive TaskPC where
  | ready : TaskPC
  | launching : Nat → TaskPC
  | finished : Nat → TaskPC
deriving DecidableEq

/-- Global state of the engine singleton plus two concurrent callers of
initBrowser: the global reference, a fresh id counter, the number of
chromium launches performed, and the two task states. -/
structure InitSys where
  gb : Option Nat
  nid : Nat
  creations : Nat
  taskA : TaskPC
  taskB : TaskPC
deriving DecidableEq

/-- One atomic step of one initBrowser call. -/
def initBrowserStep (gb : Option Nat) (nid creations : Nat) :
    TaskPC → Option Nat × Nat × Nat × TaskPC
  | TaskPC.ready =>
    match gb with
    | some b => (some b, nid, creations, TaskPC.finished b)
    | none => (none, nid + 1, creations + 1, TaskPC.launching nid)
  | TaskPC.launching id => (some id, nid, creations, TaskPC.finished id)
  | TaskPC.finished b => (gb, nid, creations, TaskPC.finished b)

/-- Scheduling one step of task A (false) or task B (true). -/
def sysStep (s : InitSys) (which : Bool) : InitSys :=
  if which then
    match initBrowserStep s.gb s.nid s.creations s.taskB with
    | (gb, nid, cr, t) => ⟨gb, nid, cr, s.taskA, t⟩
  else
    match initBrowserStep s.gb s.nid s.creations s.taskA with
    | (gb, nid, cr, t) => ⟨gb, nid, cr, t, s.taskB⟩

/-- Running a schedule of interleaved steps. -/
def runSched : InitSys → List Bool → InitSys
  | s, [] => s
  | s, w :: ws => runSched (sysStep s w) ws

/-- Initial state: no engine, both callers about to run. -/
def initSys0 : InitSys := ⟨none, 0, 0, TaskPC.ready, TaskPC.ready⟩

/- ## Concrete fixtures used to instantiate universally quantified results -/

/-- A fully configured environment. -/
def cfgW : Config := ⟨some "key", some "https://fuel.example", some "https://efs.example", 3⟩

/-- An oracle environment whose fetch, download and post all succeed. -/
def envW : PipelineEnv :=
  ⟨Except.ok (JVal.jobj [("messages", JVal.jobj [("body",
      JVal.jstr "<a href=\"https://u/v\">d</a>")])]),
    fun _ => Except.ok ⟨"/tmp/dl/f1.pdf", "Invoice_2024.pdf"⟩,
    fun _ => Except.ok 200⟩

/-- An inbound payload carrying a message id in the first accepted shape. -/
def rdW : JVal := JVal.jobj [("latest_message", JVal.jobj [("id", JVal.jstr "m9")])]

/-- An inbound payload carrying a caller supplied destination. -/
def rdW2 : JVal := JVal.jobj [("webhookUrl", JVal.jstr "https://caller.example")]

/-- The first element of the messages array, when that shape applies. -/
def firstArrayBody (m : JVal) : Option JVal :=
  match getField m "messages" with
  | some (JVal.jarr (x :: _)) => getField x "body"
  | _ => none

end Wex

namespace Wex

/- ## Shared helper lemmas -/

theorem getLast_append_singleton {α : Type} (l : List α) (a : α) :
    (l ++ [a]).getLast? = some a :=
  List.getLast?_concat l

theorem cleanup_one_file (p : String) :
    cleanupRun ⟨true, some p, true, true⟩ ⟨true, [p], true, true⟩ = cleanState := by
  simp [cleanupRun, fsUnlink, fsClearAndRemoveDir, closePage, closeContext,
    listHas, listRemove, cleanState]

theorem relayStage_release (cfg : Config) (env : PipelineEnv) (devs : List Ev)
    (art : DownloadResult) (cfgR : String × String) :
    cleanupRun (relayStage cfg env devs art cfgR).h (relayStage cfg env devs art cfgR).s
      = cleanState := by
  simp only [relayStage]
  cases hr : (relayWithRetry cfg.maxRetries env.post).1 with
  | error e => exact cleanup_one_file art.downloadPath
  | ok st => exact cleanup_one_file art.downloadPath

theorem routeStage_release (cfg : Config) (env : PipelineEnv) (devs : List Ev)
    (art : DownloadResult) :
    cleanupRun (routeStage cfg env devs art).h (routeStage cfg env devs art).s
      = cleanState := by
  simp only [routeStage]
  cases hw : determineWebhookConfig cfg art.fileName with
  | error e => exact cleanup_one_file art.downloadPath
  | ok cfgR => exact relayStage_release cfg env devs art cfgR

theorem downloadStage_release (cfg : Config) (env : PipelineEnv) :
    cleanupRun (downloadStage cfg env).h (downloadStage cfg env).s = cleanState := by
  simp only [downloadStage]
  cases hd : (downloadWithRetry cfg.maxRetries env.download 0).1 with
  | error e => rfl
  | ok art => exact routeStage_release cfg env _ art

theorem relayStage_no_responded (cfg : Config) (env : PipelineEnv) (devs : List Ev)
    (art : DownloadResult) (cfgR : String × String)
    (hdevs : ∀ q, Ev.responded q ∉ devs) :
    ∀ q, Ev.responded q ∉ (relayStage cfg env devs art cfgR).evs := by
  intro q
  simp only [relayStage]
  cases hr : (relayWithRetry cfg.maxRetries env.post).1 <;>
    simp [List.mem_append, List.mem_map, hdevs q]

theorem routeStage_no_responded (cfg : Config) (env : PipelineEnv) (devs : List Ev)
    (art : DownloadResult) (hdevs : ∀ q, Ev.responded q ∉ devs) :
    ∀ q, Ev.responded q ∉ (routeStage cfg env devs art).evs := by
  intro q
  simp only [routeStage]
  cases hw : determineWebhookConfig cfg art.fileName with
  | error e => simp [hdevs q]
  | ok cfgR => exact relayStage_no_responded cfg env devs art cfgR hdevs q

theorem downloadStage_no_responded (cfg : Config) (env : PipelineEnv) :
    ∀ q, Ev.responded q ∉ (downloadStage cfg env).evs := by
  intro q
  simp only [downloadStage]
  cases hd : (downloadWithRetry cfg.maxRetries env.download 0).1 with
  | error e => simp
  | ok art =>
    refine routeStage_no_responded cfg env _ art ?_ q
    intro q2
    simp

theorem relayStage_relayDest (cfg : Config) (env : PipelineEnv) (devs : List Ev)
    (art : DownloadResult) (cfgR : String × String) :
    (relayStage cfg env devs art cfgR).relayDest = some cfgR.1 := by
  simp only [relayStage]
  cases hr : (relayWithRetry cfg.maxRetries env.post).1 <;> rfl

theorem routeStage_relayDest (cfg : Config) (env : PipelineEnv) (devs : List Ev)
    (art : DownloadResult) :
    ∀ d, (routeStage cfg env devs art).relayDest = some d →
      ∃ ty, determineWebhookConfig cfg art.fileName = Except.ok (d, ty) := by
  intro d
  simp only [routeStage]
  cases hw : determineWebhookConfig cfg art.fileName with
  | error e => intro hd; exact absurd hd (by simp)
  | ok cfgR =>
    rw [relayStage_relayDest]
    intro hd
    injection hd with hd2
    subst hd2
    exact ⟨cfgR.2, congrArg Except.ok Prod.mk.eta.symm⟩

theorem downloadStage_relayDest (cfg : Config) (env : PipelineEnv) :
    ∀ d, (downloadStage cfg env).relayDest = some d →
      ∃ art ty, (downloadWithRetry cfg.maxRetries env.download 0).1 = Except.ok art
        ∧ determineWebhookConfig cfg art.fileName = Except.ok (d, ty) := by
  intro d
  simp only [downloadStage]
  cases hd : (downloadWithRetry cfg.maxRetries env.download 0).1 with
  | error e => intro h; exact absurd h (by simp)
  | ok art =>
    intro h
    rcases routeStage_relayDest cfg env _ art d h with ⟨ty, hty⟩
    exact ⟨art, ty, rfl, hty⟩

theorem mem_map_relayAttempt {l : List Nat} {u : String} {n : Nat} {d : String} :
    Ev.relayAttempt n d ∈ l.map (fun k => Ev.relayAttempt k u) → d = u := by
  intro h
  rcases List.mem_map.mp h with ⟨a, ha, heq⟩
  injection heq with h1 h2
  exact h2.symm

theorem relayStage_relay_events (cfg : Config) (env : PipelineEnv) (devs : List Ev)
    (art : DownloadResult) (cfgR : String × String)
    (hdevs : ∀ n d, Ev.relayAttempt n d ∉ devs) :
    ∀ n d, Ev.relayAttempt n d ∈ (relayStage cfg env devs art cfgR).evs → d = cfgR.1 := by
  intro n d
  simp only [relayStage]
  cases hr : (relayWithRetry cfg.maxRetries env.post).1 <;>
  · intro hm
    rcases List.mem_cons.mp hm with h1 | h2
    · exact absurd h1 (by simp)
    · rcases List.mem_append.mp h2 with h3 | h4
      · exact absurd h3 (hdevs n d)
      · exact mem_map_relayAttempt h4

theorem routeStage_relay_events (cfg : Config) (env : PipelineEnv) (devs : List Ev)
    (art : DownloadResult) (hdevs : ∀ n d, Ev.relayAttempt n d ∉ devs) :
    ∀ n d, Ev.relayAttempt n d ∈ (routeStage cfg env devs art).evs →
      (routeStage cfg env devs art).relayDest = some d := by
  intro n d
  simp only [routeStage]
  cases hw : determineWebhookConfig cfg art.fileName with
  | error e =>
    intro hm
    rcases List.mem_cons.mp hm with h1 | h2
    · exact absurd h1 (by simp)
    · exact absurd h2 (hdevs n d)
  | ok cfgR =>
    intro hm
    rw [relayStage_relayDest]
    rw [relayStage_relay_events cfg env devs art cfgR hdevs n d hm]

theorem downloadStage_relay_events (cfg : Config) (env : PipelineEnv) :
    ∀ n d, Ev.relayAttempt n d ∈ (downloadStage cfg env).evs →
      (downloadStage cfg env).relayDest = some d := by
  intro n d
  simp only [downloadStage]
  cases hd : (downloadWithRetry cfg.maxRetries env.download 0).1 with
  | error e =>
    intro hm
    simp at hm
  | ok art =>
    refine routeStage_relay_events cfg env _ art ?_ n d
    intro n2 d2
    simp

theorem downloadLoop_ok {att : Nat → Except String DownloadResult} {r : Nat}
    {v : DownloadResult} (b : Nat) (h : att r = Except.ok v) :
    downloadLoop att r b = (Except.ok v, 1) := by
  unfold downloadLoop
  rw [h]

theorem downloadLoop_error_zero {att : Nat → Except String DownloadResult} {r : Nat}
    {e : String} (h : att r = Except.error e) :
    downloadLoop att r 0 = (Except.error e, 1) := by
  unfold downloadLoop
  rw [h]

theorem downloadLoop_error_succ {att : Nat → Except String DownloadResult} {r : Nat}
    {e : String} (n : Nat) (h : att r = Except.error e) :
    downloadLoop att r (n + 1) =
      ((downloadLoop att (r + 1) n).1, (downloadLoop att (r + 1) n).2 + 1) := by
  conv_lhs => rw [downloadLoop.eq_def]
  rw [h]

theorem relayLoop_ok {post : Nat → Except String Nat} {k : Nat} {st : Nat}
    (m b : Nat) (h : post k = Except.ok st) :
    relayAttemptLoop m post k b = (Except.ok st, 1) := by
  unfold relayAttemptLoop
  rw [h]

theorem relayLoop_error_zero {post : Nat → Except String Nat} {k : Nat} {e : String}
    (m : Nat) (h : post k = Except.error e) :
    relayAttemptLoop m post k 0 =
      (Except.error ("Failed to send to webhook after " ++ toString m
        ++ " attempts: " ++ e), 1) := by
  unfold relayAttemptLoop
  rw [h]

theorem relayLoop_error_succ {post : Nat → Except String Nat} {k : Nat} {e : String}
    (m n : Nat) (h : post k = Except.error e) :
    relayAttemptLoop m post k (n + 1) =
      ((relayAttemptLoop m post (k + 1) n).1, (relayAttemptLoop m post (k + 1) n).2 + 1) := by
  conv_lhs => rw [relayAttemptLoop.eq_def]
  rw [h]

theorem listHas_remove_self : ∀ (l : List String) (p : String), distinctL l = true →
    listHas (listRemove l p) p = false := by
  intro l
  induction l with
  | nil => intro p _; rfl
  | cons x xs ih =>
    intro p hd
    have hd1 : listHas xs x = false := by
      by_cases h : listHas xs x
      · simp [distinctL, h] at hd
      · simpa using h
    have hd2 : distinctL xs = true := by
      by_cases h : distinctL xs
      · exact h
      · simp [distinctL, h] at hd
    by_cases hx : x = p
    · subst hx
      simp [listRemove, hd1]
    · simp [listRemove, hx, listHas, ih p hd2]

theorem orEmptyStr_falsy (o : Option JVal) (h : truthyO o = false) :
    orEmptyStr o = JVal.jstr "" := by
  cases o with
  | none => rfl
  | some v => simp [truthyO] at h; simp [orEmptyStr, h]

theorem downloadLoop_all_fail :
    ∀ (b : Nat) (att : Nat → Except String DownloadResult) (es : Nat → String),
      (∀ i, att i = Except.error (es i)) → ∀ r,
      downloadLoop att r b = (Except.error (es (b + r)), b + 1) := by
  intro b
  induction b with
  | zero => intro att es h r; rw [downloadLoop_error_zero (h r)]; simp
  | succ n ih =>
    intro att es h r
    have hr := ih att es h (r + 1)
    have harg : n + (r + 1) = n + 1 + r := by omega
    rw [harg] at hr
    rw [downloadLoop_error_succ n (h r), hr]

theorem downloadLoop_count_le :
    ∀ (b : Nat) (att : Nat → Except String DownloadResult) (r : Nat),
      (downloadLoop att r b).2 ≤ b + 1 := by
  intro b
  induction b with
  | zero =>
    intro att r
    cases h : att r with
    | ok v => rw [downloadLoop_ok 0 h]
    | error e => rw [downloadLoop_error_zero h]
  | succ n ih =>
    intro att r
    cases h : att r with
    | ok v => rw [downloadLoop_ok (n + 1) h]; omega
    | error e =>
      rw [downloadLoop_error_succ n h]
      have := ih att (r + 1)
      simp only []
      omega

theorem relayLoop_all_fail :
    ∀ (b m : Nat) (post : Nat → Except String Nat) (es : Nat → String),
      (∀ i, post i = Except.error (es i)) → ∀ k,
      relayAttemptLoop m post k b =
        (Except.error ("Failed to send to webhook after " ++ toString m
          ++ " attempts: " ++ es (b + k)), b + 1) := by
  intro b
  induction b with
  | zero => intro m post es h k; rw [relayLoop_error_zero m (h k)]; simp
  | succ n ih =>
    intro m post es h k
    have hr := ih m post es h (k + 1)
    have harg : n + (k + 1) = n + 1 + k := by omega
    rw [harg] at hr
    rw [relayLoop_error_succ m n (h k), hr]

theorem relayLoop_count_le :
    ∀ (b m : Nat) (post : Nat → Except String Nat) (k : Nat),
      (relayAttemptLoop m post k b).2 ≤ b + 1 := by
  intro b
  induction b with
  | zero =>
    intro m post k
    cases h : post k with
    | ok v => rw [relayLoop_ok m 0 h]
    | error e => rw [relayLoop_error_zero m h]
  | succ n ih =>
    intro m post k
    cases h : post k with
    | ok v => rw [relayLoop_ok m (n + 1) h]; omega
    | error e =>
      rw [relayLoop_error_succ m n h]
      have := ih m post (k + 1)
      simp only []
      omega

/- ## Claim C2 -/

/-- C2: with MAX_RETRIES three, a download failing on every attempt is
attempted exactly four times (the first attempt plus three retries) and
downloadWithRetry then fails carrying the error of the last attempt;
for any configured MAX_RETRIES value the number of attempts never
exceeds one plus MAX_RETRIES. -/
theorem c2_download_retry_bound :
    (∀ (es : Nat → String) (att : Nat → Except String DownloadResult),
        (∀ i, att i = Except.error (es i)) →
        (downloadWithRetry 3 att 0).2 = 4
        ∧ (downloadWithRetry 3 att 0).1 = Except.error (es 3))
    ∧ (∀ (m : Nat) (att : Nat → Except String DownloadResult),
        (downloadWithRetry m att 0).2 ≤ m + 1) := by
  constructor
  · intro es att h
    have hall := downloadLoop_all_fail 3 att es h 0
    unfold downloadWithRetry
    rw [show (3 : Nat) - 0 = 3 from rfl, hall]
    exact ⟨rfl, rfl⟩
  · intro m att
    unfold downloadWithRetry
    have := downloadLoop_count_le (m - 0) att 0
    simpa using this

/-- Witness for C2 at a concrete permanently failing oracle. -/
theorem c2_download_retry_bound_witness :
    (downloadWithRetry 3 (fun i => Except.error (toString i)) 0).2 = 4
    ∧ (downloadWithRetry 3 (fun i => Except.error (toString i)) 0).1
        = Except.error (toString 3) :=
  c2_download_retry_bound.1 (fun i => toString i) (fun i => Except.error (toString i))
    (fun _ => rfl)

/- ## Claim C5 -/

/-- C5 counterexample: with MAX_RETRIES three and a permanently failing
POST, the relay loop performs four attempts but the terminal error
message names three (the configured retry budget), not the number of
attempts made: the digit four appears nowhere in the message. -/
theorem c5_relay_error_counterexample :
    (relayWithRetry 3 (fun _ => Except.error "connection refused")).2 = 4
    ∧ (relayWithRetry 3 (fun _ => Except.error "connection refused")).1 =
        Except.error "Failed to send to webhook after 3 attempts: connection refused"
    ∧ containsSub "Failed to send to webhook after 3 attempts: connection refused" "4" = false :=
  ⟨rfl, rfl, by decide⟩

/-- C5 as amended: the relay upload is retried up to MAX_RETRIES
additional attempts beyond the first; after exhausting all attempts it
fails with an error whose message names MAX_RETRIES, the configured
retry budget, which is one fewer than the number of attempts made; on
success it yields the upstream HTTP status code. -/
theorem c5_relay_retry_amended :
    (∀ (m : Nat) (post : Nat → Except String Nat), (relayWithRetry m post).2 ≤ m + 1)
    ∧ (∀ (m : Nat) (post : Nat → Except String Nat) (es : Nat → String),
        (∀ i, post i = Except.error (es i)) →
        relayWithRetry m post =
          (Except.error ("Failed to send to webhook after " ++ toString m
            ++ " attempts: " ++ es m), m + 1))
    ∧ (∀ (m : Nat) (post : Nat → Except String Nat) (st : Nat),
        post 0 = Except.ok st → (relayWithRetry m post).1 = Except.ok st) := by
  refine ⟨?_, ?_, ?_⟩
  · intro m post
    unfold relayWithRetry
    exact relayLoop_count_le m m post 0
  · intro m post es h
    have hall := relayLoop_all_fail m m post es h 0
    unfold relayWithRetry
    rw [hall, Nat.add_zero]
  · intro m post st h
    unfold relayWithRetry
    rw [relayLoop_ok m m h]

/-- Witness for the amended C5 at concrete oracles. -/
theorem c5_relay_retry_amended_witness :
    relayWithRetry 3 (fun _ => Except.error "boom") =
      (Except.error ("Failed to send to webhook after " ++ toString 3
        ++ " attempts: " ++ "boom"), 4)
    ∧ (relayWithRetry 3 (fun _ => Except.ok 200)).1 = Except.ok 200 :=
  ⟨c5_relay_retry_amended.2.1 3 (fun _ => Except.error "boom") (fun _ => "boom")
      (fun _ => rfl),
    c5_relay_retry_amended.2.2 3 (fun _ => Except.ok 200) 200 rfl⟩

/- ## Claim C8 -/

/-- C8 counterexample: under the interleaving in which both callers
perform the null check before either launch resolves, two engine
creations occur and the callers finish with different engine
references, refuting serialized creation and the single live instance. -/
theorem c8_engine_race_counterexample :
    (runSched initSys0 [false, true, false, true]).creations = 2
    ∧ (runSched initSys0 [false, true, false, true]).taskA = TaskPC.finished 0
    ∧ (runSched initSys0 [false, true, false, true]).taskB = TaskPC.finished 1
    ∧ (0 : Nat) ≠ 1 :=
  ⟨rfl, rfl, rfl, by decide⟩

/-- C8 as amended: initBrowser is idempotent only sequentially: a call
that runs while the engine reference is already set returns the
existing engine without a new creation, and when the second caller
starts only after the first completed, exactly one creation occurs and
both callers receive the same engine; creation is not serialized, so
concurrent first calls may create two engines. -/
theorem c8_engine_acquisition_amended :
    (∀ (s : InitSys) (b : Nat), s.gb = some b → s.taskA = TaskPC.ready →
        sysStep s false = { s with taskA := TaskPC.finished b })
    ∧ (runSched initSys0 [false, false, true]).creations = 1
    ∧ (runSched initSys0 [false, false, true]).taskA = TaskPC.finished 0
    ∧ (runSched initSys0 [false, false, true]).taskB = TaskPC.finished 0 := by
  refine ⟨?_, rfl, rfl, rfl⟩
  intro s b hgb hta
  cases s with
  | mk gb nid cr ta tb =>
    simp only [] at hgb hta
    subst hgb
    subst hta
    rfl

/-- Witness for the amended C8 at a concrete state. -/
theorem c8_engine_acquisition_amended_witness :
    sysStep ⟨some 7, 8, 1, TaskPC.ready, TaskPC.finished 7⟩ false =
      ⟨some 7, 8, 1, TaskPC.finished 7, TaskPC.finished 7⟩ :=
  c8_engine_acquisition_amended.1 ⟨some 7, 8, 1, TaskPC.ready, TaskPC.finished 7⟩ 7 rfl rfl

/- ## Claim C1 -/

/-- C1: on every run of the pipeline, whatever the outcome of its
stages, the final resource state is fully released: no working
directory, no files, page and context closed, with no partial
completion, and the release event is the last event of the run;
moreover the release block is idempotent: running it a second time on
the same handles and the state it produced changes nothing (and, being
total, never errors). -/
theorem c1_release_on_every_path :
    (∀ (cfg : Config) (env : PipelineEnv) (rd mid : JVal) (cid : Option JVal),
        (processDownloadAsync cfg env rd mid cid).finalState = cleanState
        ∧ (processDownloadAsync cfg env rd mid cid).events.getLast? = some Ev.cleanup)
    ∧ (∀ (h : Handles) (s : ResState), distinctL s.dirFiles = true →
        cleanupRun h (cleanupRun h s) = cleanupRun h s) := by
  constructor
  · intro cfg env rd mid cid
    have hres : cleanupRun (runBody cfg env rd mid cid).h (runBody cfg env rd mid cid).s
        = cleanState := by
      simp only [runBody]
      split
      · rfl
      · split
        · rfl
        · exact downloadStage_release cfg env
    refine ⟨hres, ?_⟩
    exact getLast_append_singleton (runBody cfg env rd mid cid).evs Ev.cleanup
  · intro h s hdist
    rcases h with ⟨td, dp, pg, cx⟩
    rcases s with ⟨de, fl, po, co⟩
    cases dp with
    | none =>
      cases td <;> cases de <;> cases pg <;> cases cx <;>
        simp [cleanupRun, fsUnlink, fsClearAndRemoveDir, closePage, closeContext]
    | some p =>
      have hrm : listHas (listRemove fl p) p = false := listHas_remove_self fl p hdist
      cases td <;> cases de <;> cases pg <;> cases cx <;>
        by_cases hhas : listHas fl p <;>
        simp [cleanupRun, fsUnlink, fsClearAndRemoveDir, closePage, closeContext, hhas, hrm]

/-- Witness for C1 at a concrete handle and state pair. -/
theorem c1_release_on_every_path_witness :
    cleanupRun ⟨false, some "a.pdf", false, false⟩
        (cleanupRun ⟨false, some "a.pdf", false, false⟩ ⟨true, ["a.pdf", "b.pdf"], true, true⟩)
      = cleanupRun ⟨false, some "a.pdf", false, false⟩ ⟨true, ["a.pdf", "b.pdf"], true, true⟩ :=
  c1_release_on_every_path.2 ⟨false, some "a.pdf", false, false⟩
    ⟨true, ["a.pdf", "b.pdf"], true, true⟩ (by decide)

/- ## Claim C3 -/

/-- C3: extractDownloadUrl applies the extraction patterns in a fixed
priority order: the href attribute pattern with the amp entity decoded,
then the labeled Download at anchor pattern, then the provider
getJobFile pattern, then the pdf suffix pattern; the first matching
pattern wins and later patterns are never consulted; in particular a
body holding both an href attribute and a bare pdf URL yields the
entity decoded href, as in the concrete example of the claim. -/
theorem c3_url_extraction_priority :
    (extractDownloadUrl (JVal.jobj [("messages", JVal.jobj [("body", JVal.jstr
        "<a href=\"https://x/y?a=1&amp;b=2\">Download</a> see also https://x/report.pdf")])])
      = Except.ok "https://x/y?a=1&b=2")
    ∧ (∀ (s : String) (u : List Char), hrefScan s.data = some u →
        extractFromBody s = Except.ok (String.mk (decodeAmp u)))
    ∧ (∀ (s : String) (u : List Char), hrefScan s.data = none →
        scanDownloadAt s.data = some u →
        extractFromBody s = Except.ok (String.mk (decodeAmp u)))
    ∧ (∀ (s : String) (u : String), hrefScan s.data = none →
        scanDownloadAt s.data = none → pickMatch (fleetMatches s) = some u →
        extractFromBody s = Except.ok (String.mk (decodeAmp u.data)))
    ∧ (∀ (s : String) (u : String), hrefScan s.data = none →
        scanDownloadAt s.data = none → pickMatch (fleetMatches s) = none →
        pickMatch (pdfMatches s) = some u →
        extractFromBody s = Except.ok (String.mk (decodeAmp u.data)))
    ∧ (∀ s : String, hrefScan s.data = none → scanDownloadAt s.data = none →
        pickMatch (fleetMatches s) = none → pickMatch (pdfMatches s) = none →
        extractFromBody s = Except.error "No download URL found in message body") := by
  refine ⟨rfl, ?_, ?_, ?_, ?_, ?_⟩
  · intro s u h1
    unfold extractFromBody
    rw [h1]
  · intro s u h1 h2
    unfold extractFromBody
    rw [h1, h2]
  · intro s u h1 h2 h3
    unfold extractFromBody
    rw [h1, h2, h3]
  · intro s u h1 h2 h3 h4
    unfold extractFromBody
    rw [h1, h2, h3, h4]
  · intro s h1 h2 h3 h4
    unfold extractFromBody
    rw [h1, h2, h3, h4]

/-- Witness for C3 at a concrete body matched by the href pattern. -/
theorem c3_url_extraction_priority_witness :
    extractFromBody "<a href=\"https://e/f?x=1&amp;y=2\">go</a>"
      = Except.ok (String.mk (decodeAmp "https://e/f?x=1&amp;y=2".data)) :=
  c3_url_extraction_priority.2.1 "<a href=\"https://e/f?x=1&amp;y=2\">go</a>"
    "https://e/f?x=1&amp;y=2".data rfl

/- ## Claim C4 -/

/-- C4: determineWebhookConfig is a pure function of the file name:
a name whose lowercase form contains the marker substring routes to
the fuel report endpoint with label FuelReport, any other name routes
to the EFS report endpoint with label EFSReport, case insensitively,
as shown on the three concrete names of the claim; and it fails with
the routing configuration error, naming the selected environment
variable, exactly when the selected endpoint is unset. -/
theorem c4_routing_by_filename :
    (∀ (cfg : Config) (fn u : String), containsSub (lowerStr fn) "grandtotalreport" = true →
        cfg.fuelReportWebhook = some u → u.isEmpty = false →
        determineWebhookConfig cfg fn = Except.ok (u, "FuelReport"))
    ∧ (∀ (cfg : Config) (fn u : String), containsSub (lowerStr fn) "grandtotalreport" = false →
        cfg.efsReportWebhook = some u → u.isEmpty = false →
        determineWebhookConfig cfg fn = Except.ok (u, "EFSReport"))
    ∧ determineWebhookConfig cfgW "GrandTotalReport_2024.pdf"
        = Except.ok ("https://fuel.example", "FuelReport")
    ∧ determineWebhookConfig cfgW "grandtotalreport.PDF"
        = Except.ok ("https://fuel.example", "FuelReport")
    ∧ determineWebhookConfig cfgW "Invoice_2024.pdf"
        = Except.ok ("https://efs.example", "EFSReport")
    ∧ (∀ (cfg : Config) (fn : String), containsSub (lowerStr fn) "grandtotalreport" = true →
        cfg.fuelReportWebhook = none →
        determineWebhookConfig cfg fn
          = Except.error "FUELREPORTWEBHOOK environment variable is not configured")
    ∧ (∀ (cfg : Config) (fn : String), containsSub (lowerStr fn) "grandtotalreport" = false →
        cfg.efsReportWebhook = none →
        determineWebhookConfig cfg fn
          = Except.error "EFSREPORTWEBHOOK environment variable is not configured")
    ∧ (∀ (cfg : Config) (fn : String),
        (∀ v, cfg.fuelReportWebhook = some v → v.isEmpty = false) →
        (∀ v, cfg.efsReportWebhook = some v → v.isEmpty = false) →
        ((∃ e, determineWebhookConfig cfg fn = Except.error e) ↔
          (if containsSub (lowerStr fn) "grandtotalreport" then cfg.fuelReportWebhook
           else cfg.efsReportWebhook) = none)) := by
  refine ⟨?_, ?_, rfl, rfl, rfl, ?_, ?_, ?_⟩
  · intro cfg fn u hm hc he
    simp [determineWebhookConfig, hm, hc, optFalsy, he]
  · intro cfg fn u hm hc he
    simp [determineWebhookConfig, hm, hc, optFalsy, he]
  · intro cfg fn hm hc
    simp [determineWebhookConfig, hm, hc, optFalsy]
  · intro cfg fn hm hc
    simp [determineWebhookConfig, hm, hc, optFalsy]
  · intro cfg fn hfuel hefs
    by_cases hm : containsSub (lowerStr fn) "grandtotalreport"
    · rw [if_pos hm]
      cases hc : cfg.fuelReportWebhook with
      | none => simp [determineWebhookConfig, hm, hc, optFalsy]
      | some v =>
        have hv := hfuel v hc
        simp [determineWebhookConfig, hm, hc, optFalsy, hv]
    · rw [if_neg hm]
      have hmf : containsSub (lowerStr fn) "grandtotalreport" = false := by simpa using hm
      cases hc : cfg.efsReportWebhook with
      | none => simp [determineWebhookConfig, hmf, hc, optFalsy]
      | some v =>
        have hv := hefs v hc
        simp [determineWebhookConfig, hmf, hc, optFalsy, hv]

/-- Witness for C4 at a concrete configuration and file name. -/
theorem c4_routing_by_filename_witness :
    determineWebhookConfig ⟨none, some "https://fuel.example", none, 3⟩ "GrandTotalReport.pdf"
      = Except.ok ("https://fuel.example", "FuelReport") :=
  c4_routing_by_filename.1 ⟨none, some "https://fuel.example", none, 3⟩
    "GrandTotalReport.pdf" "https://fuel.example" (by decide) rfl (by decide)

/- ## Claim C9 -/

/-- C9: extractDownloadUrl locates the message body by checking, in
order, the messages field as a single object, the messages field as a
non empty array, the message.body field, then the top level body
field; when none of these yields a non empty string it fails with the
no-message-body error, which is distinct from the no-download-URL
error, before any URL pattern is consulted (the error depends only on
the selected body being empty, never on pattern content). -/
theorem c9_body_location_order :
    (∀ (m : JVal) (fs : List (String × JVal)), getField m "messages" = some (JVal.jobj fs) →
        extractDownloadUrl m = extractFromBodyVal (orEmptyStr (lookupField fs "body")))
    ∧ (∀ (m x : JVal) (rest : List JVal),
        getField m "messages" = some (JVal.jarr (x :: rest)) →
        extractDownloadUrl m = extractFromBodyVal (orEmptyStr (getField x "body")))
    ∧ (∀ (m v : JVal), getField m "messages" = none →
        ochain (getField m "message") "body" = some v → truthyV v = true →
        extractDownloadUrl m = extractFromBodyVal v)
    ∧ (∀ (m v : JVal), getField m "messages" = none →
        truthyO (ochain (getField m "message") "body") = false →
        getField m "body" = some v → truthyV v = true →
        extractDownloadUrl m = extractFromBodyVal v)
    ∧ (∀ m : JVal, truthyV (selectBody m) = false →
        extractDownloadUrl m = Except.error "No message body found in Missive response")
    ∧ (∀ m : JVal,
        truthyO (ochain (getField m "messages") "body") = false →
        truthyO (firstArrayBody m) = false →
        truthyO (ochain (getField m "message") "body") = false →
        truthyO (getField m "body") = false →
        extractDownloadUrl m = Except.error "No message body found in Missive response")
    ∧ "No message body found in Missive response"
        ≠ "No download URL found in message body" := by
  have hobj : ∀ (m : JVal) (fs : List (String × JVal)),
      getField m "messages" = some (JVal.jobj fs) →
      selectBody m = orEmptyStr (lookupField fs "body") := by
    intro m fs h
    unfold selectBody
    rw [h]
    rfl
  have harr : ∀ (m x : JVal) (rest : List JVal),
      getField m "messages" = some (JVal.jarr (x :: rest)) →
      selectBody m = orEmptyStr (getField x "body") := by
    intro m x rest h
    unfold selectBody
    rw [h]
  have hnone : ∀ m : JVal, getField m "messages" = none →
      selectBody m = selectBodyFallback m := by
    intro m h
    unfold selectBody
    rw [h]
  have hfall : ∀ m : JVal, truthyO (ochain (getField m "message") "body") = false →
      truthyO (getField m "body") = false → selectBodyFallback m = JVal.jstr "" := by
    intro m h1 h2
    simp only [selectBodyFallback]
    rw [h1, h2]
    simp
  have hempty : ∀ m : JVal, truthyV (selectBody m) = false →
      extractDownloadUrl m = Except.error "No message body found in Missive response" := by
    intro m h
    unfold extractDownloadUrl extractFromBodyVal
    rw [h]
    simp
  refine ⟨?_, ?_, ?_, ?_, hempty, ?_, by decide⟩
  · intro m fs h
    unfold extractDownloadUrl
    rw [hobj m fs h]
  · intro m x rest h
    unfold extractDownloadUrl
    rw [harr m x rest h]
  · intro m v h1 h2 ht
    unfold extractDownloadUrl
    rw [hnone m h1]
    have hsel : selectBodyFallback m = v := by
      simp only [selectBodyFallback]
      rw [h2]
      simp [truthyO, orEmptyStr, ht]
    rw [hsel]
  · intro m v h1 hf h2 ht
    unfold extractDownloadUrl
    rw [hnone m h1]
    have hsel : selectBodyFallback m = v := by
      simp only [selectBodyFallback]
      rw [hf, h2]
      simp [truthyO, orEmptyStr, ht]
    rw [hsel]
  · intro m h1 h2 h3 h4
    apply hempty
    cases hms : getField m "messages" with
    | none => rw [hnone m hms, hfall m h3 h4]; rfl
    | some msgs =>
      cases msgs with
      | jstr s =>
        have : selectBody m = selectBodyFallback m := by
          unfold selectBody
          rw [hms]
        rw [this, hfall m h3 h4]
        rfl
      | jobj fs =>
        have hof : truthyO (lookupField fs "body") = false := by
          rw [hms] at h1
          simpa [ochain, getField] using h1
        rw [hobj m fs hms, orEmptyStr_falsy _ hof]
        rfl
      | jarr xs =>
        cases xs with
        | nil =>
          have : selectBody m = selectBodyFallback m := by
            unfold selectBody
            rw [hms]
          rw [this, hfall m h3 h4]
          rfl
        | cons x rest =>
          have hxf : truthyO (getField x "body") = false := by
            have hfb := h2
            unfold firstArrayBody at hfb
            rw [hms] at hfb
            exact hfb
          rw [harr m x rest hms, orEmptyStr_falsy _ hxf]
          rfl

/-- Witness for C9 at a concrete document with no body anywhere. -/
theorem c9_body_location_order_witness :
    extractDownloadUrl (JVal.jobj [("subject", JVal.jstr "report")])
      = Except.error "No message body found in Missive response" :=
  c9_body_location_order.2.2.2.2.2.1 (JVal.jobj [("subject", JVal.jstr "report")])
    rfl rfl rfl rfl

/- ## Claim C10 -/

/-- C10: when the inbound JSON payload is an array only its first
element is processed and the remaining elements are ignored (an empty
array is rejected as invalid); the message identifier is accepted from
latest_message.id or, failing that, from body.latest_message.id, and
the conversation identifier from conversation.id or
body.conversation.id; a payload with no message identifier under
either shape is rejected with an HTTP 400 response and no pipeline
task is created. -/
theorem c10_inbound_validation :
    (∀ (x : JVal) (rest : List JVal),
        processReportHandler (JVal.jarr (x :: rest)) = processReportHandler (JVal.jarr [x]))
    ∧ ((processReportHandler (JVal.jarr [])).task = none
        ∧ (processReportHandler (JVal.jarr [])).response
            = HttpResponse.badRequest "Invalid request format" "Request body is empty or invalid")
    ∧ (∀ (rd v : JVal), isArr rd = false → truthyV rd = true →
        ochain (getField rd "latest_message") "id" = some v → truthyV v = true →
        (processReportHandler rd).task = some ⟨rd, v, pickConversationId rd⟩
        ∧ (processReportHandler rd).response = HttpResponse.okAccepted v (pickConversationId rd))
    ∧ (∀ (rd v : JVal), isArr rd = false → truthyV rd = true →
        truthyO (ochain (getField rd "latest_message") "id") = false →
        ochain (ochain (getField rd "body") "latest_message") "id" = some v → truthyV v = true →
        (processReportHandler rd).task = some ⟨rd, v, pickConversationId rd⟩
        ∧ (processReportHandler rd).response = HttpResponse.okAccepted v (pickConversationId rd))
    ∧ (∀ rd : JVal, isArr rd = false → truthyV rd = true →
        truthyO (ochain (getField rd "latest_message") "id") = false →
        truthyO (ochain (ochain (getField rd "body") "latest_message") "id") = false →
        (processReportHandler rd).task = none
        ∧ (processReportHandler rd).response
            = HttpResponse.badRequest "Missing message ID" "Could not find message ID in request")
    ∧ (∀ (rd v : JVal), ochain (getField rd "conversation") "id" = some v → truthyV v = true →
        pickConversationId rd = some v)
    ∧ (∀ (rd v : JVal), truthyO (ochain (getField rd "conversation") "id") = false →
        ochain (ochain (getField rd "body") "conversation") "id" = some v → truthyV v = true →
        pickConversationId rd = some v) := by
  refine ⟨?_, ⟨rfl, rfl⟩, ?_, ?_, ?_, ?_, ?_⟩
  · intro x rest
    simp [processReportHandler, isArr, jarrHead]
  · intro rd v ha ht h1 hv
    have hmid : pickMessageId rd = some v := by
      simp only [pickMessageId]
      rw [h1]
      simp [truthyO, hv]
    simp [processReportHandler, handleRequestData, ha, ht, hmid]
  · intro rd v ha ht h0 h1 hv
    have hmid : pickMessageId rd = some v := by
      simp only [pickMessageId]
      rw [h0, h1]
      simp [truthyO, hv]
    simp [processReportHandler, handleRequestData, ha, ht, hmid]
  · intro rd ha ht h0 h1
    have hmid : pickMessageId rd = none := by
      simp only [pickMessageId]
      rw [h0, h1]
      simp
    simp [processReportHandler, handleRequestData, ha, ht, hmid]
  · intro rd v h1 hv
    simp only [pickConversationId]
    rw [h1]
    simp [truthyO, hv]
  · intro rd v h0 h1 hv
    simp only [pickConversationId]
    rw [h0, h1]
    simp [truthyO, hv]

/-- Witness for C10 at a concrete single element array payload. -/
theorem c10_inbound_validation_witness :
    (processReportHandler rdW).task = some ⟨rdW, JVal.jstr "m9", pickConversationId rdW⟩
    ∧ (processReportHandler rdW).response
        = HttpResponse.okAccepted (JVal.jstr "m9") (pickConversationId rdW) :=
  c10_inbound_validation.2.2.1 rdW (JVal.jstr "m9") rfl rfl rfl rfl

/- ## Claim C6 -/

theorem handleRequestData_task_response : ∀ (rd : JVal) (t : TaskData),
    (handleRequestData rd).task = some t →
    (handleRequestData rd).response
      = HttpResponse.okAccepted t.messageId t.conversationId := by
  intro rd t h
  simp only [handleRequestData] at h ⊢
  by_cases htr : truthyV rd = true
  · rw [if_pos htr] at h ⊢
    cases hmid : pickMessageId rd with
    | none =>
      rw [hmid] at h
      simp at h
    | some mid =>
      rw [hmid] at h
      have h2 : some (⟨rd, mid, pickConversationId rd⟩ : TaskData) = some t := h
      injection h2 with h3
      rw [← h3]
  · rw [if_neg htr] at h
    simp at h

theorem handler_task_response : ∀ (reqBody : JVal) (t : TaskData),
    (processReportHandler reqBody).task = some t →
    (processReportHandler reqBody).response
      = HttpResponse.okAccepted t.messageId t.conversationId := by
  intro reqBody t h
  simp only [processReportHandler] at h ⊢
  cases hrq : (if isArr reqBody = true then jarrHead reqBody else some reqBody) with
  | none =>
    rw [hrq] at h
    simp at h
  | some rd =>
    rw [hrq] at h
    exact handleRequestData_task_response rd t h

theorem responded_not_in_pipeline : ∀ (cfg : Config) (env : PipelineEnv) (rd mid : JVal)
    (cid : Option JVal) (q : HttpResponse),
    Ev.responded q ∉ (processDownloadAsync cfg env rd mid cid).events := by
  intro cfg env rd mid cid q
  have hb : Ev.responded q ∉ (runBody cfg env rd mid cid).evs := by
    simp only [runBody]
    split
    · simp
    · split
      · simp
      · exact downloadStage_no_responded cfg env q
  have heq : (processDownloadAsync cfg env rd mid cid).events
      = (runBody cfg env rd mid cid).evs ++ [Ev.cleanup] := rfl
  rw [heq]
  intro hmem
  rcases List.mem_append.mp hmem with h1 | h2
  · exact hb h1
  · simp at h2

/-- C6: for every inbound event carrying a valid message identifier,
the 200 acknowledgement is determined by the payload alone and emitted
at the head of the trace, before any pipeline event; the pipeline
environment (fetch, download and relay outcomes) has no influence on
the response, so the caller never observes the pipeline outcome. -/
theorem c6_ack_before_pipeline :
    ∀ (cfg cfg2 : Config) (env env2 : PipelineEnv) (reqBody : JVal) (t : TaskData),
      (processReportHandler reqBody).task = some t →
      (runProcessReport cfg env reqBody).response
          = HttpResponse.okAccepted t.messageId t.conversationId
      ∧ (runProcessReport cfg env reqBody).response = (runProcessReport cfg2 env2 reqBody).response
      ∧ systemTrace cfg env reqBody
          = Ev.responded (HttpResponse.okAccepted t.messageId t.conversationId)
            :: (processDownloadAsync cfg env t.requestData t.messageId t.conversationId).events
      ∧ ∀ q, Ev.responded q ∉ (systemTrace cfg env reqBody).tail := by
  intro cfg cfg2 env env2 reqBody t h
  have hresp := handler_task_response reqBody t h
  have hr1 : (runProcessReport cfg env reqBody).response
      = (processReportHandler reqBody).response := rfl
  refine ⟨by rw [hr1, hresp], rfl, ?_, ?_⟩
  · simp only [systemTrace]
    rw [h, hresp]
  · simp only [systemTrace]
    rw [h]
    intro q
    simp only [List.tail_cons]
    exact responded_not_in_pipeline cfg env t.requestData t.messageId t.conversationId q

/-- Witness for C6: the acknowledgement for a concrete valid event is
the same under a fully working environment and a fully failing one. -/
theorem c6_ack_before_pipeline_witness :
    (runProcessReport cfgW envW rdW).response
        = HttpResponse.okAccepted (JVal.jstr "m9") none
    ∧ (runProcessReport cfgW envW rdW).response
        = (runProcessReport ⟨none, none, none, 0⟩
            ⟨Except.error "down", fun _ => Except.error "dl", fun _ => Except.error "po"⟩
            rdW).response :=
  ⟨(c6_ack_before_pipeline cfgW ⟨none, none, none, 0⟩ envW
      ⟨Except.error "down", fun _ => Except.error "dl", fun _ => Except.error "po"⟩
      rdW ⟨rdW, JVal.jstr "m9", none⟩ rfl).1,
    (c6_ack_before_pipeline cfgW ⟨none, none, none, 0⟩ envW
      ⟨Except.error "down", fun _ => Except.error "dl", fun _ => Except.error "po"⟩
      rdW ⟨rdW, JVal.jstr "m9", none⟩ rfl).2.1⟩

/- ## Claim C7 -/

/-- C7: the destination of the final upload is derived solely from the
downloaded file name through the routing rules: the pipeline result is
unchanged when only the inbound payload (and hence any caller supplied
webhookUrl) varies, every reached relay destination is the routed one
for the downloaded file name, and every relay attempt event targets
that routed destination. -/
theorem c7_routing_overrides_caller_destination :
    ∀ (cfg : Config) (env : PipelineEnv) (rd rd2 mid : JVal) (cid : Option JVal),
      (processDownloadAsync cfg env rd mid cid).relayDest
          = (processDownloadAsync cfg env rd2 mid cid).relayDest
      ∧ (∀ d, (processDownloadAsync cfg env rd mid cid).relayDest = some d →
          ∃ art ty, (downloadWithRetry cfg.maxRetries env.download 0).1 = Except.ok art
            ∧ determineWebhookConfig cfg art.fileName = Except.ok (d, ty))
      ∧ (∀ n d, Ev.relayAttempt n d ∈ (processDownloadAsync cfg env rd mid cid).events →
          (processDownloadAsync cfg env rd mid cid).relayDest = some d) := by
  intro cfg env rd rd2 mid cid
  have heqd : (processDownloadAsync cfg env rd mid cid).relayDest
      = (runBody cfg env rd mid cid).relayDest := rfl
  have heqe : (processDownloadAsync cfg env rd mid cid).events
      = (runBody cfg env rd mid cid).evs ++ [Ev.cleanup] := rfl
  refine ⟨rfl, ?_, ?_⟩
  · intro d
    rw [heqd]
    simp only [runBody]
    split
    · intro hd; exact absurd hd (by simp)
    · split
      · intro hd; exact absurd hd (by simp)
      · exact downloadStage_relayDest cfg env d
  · intro n d
    rw [heqe, heqd]
    simp only [runBody]
    split
    · intro hm; simp at hm
    · split
      · intro hm; simp at hm
      · intro hm
        rcases List.mem_append.mp hm with h1 | h2
        · exact downloadStage_relay_events cfg env n d h1
        · simp at h2

/-- Witness for C7: a run with a caller supplied destination in the
payload still relays to the endpoint routed from the file name. -/
theorem c7_routing_overrides_caller_destination_witness :
    ∃ art ty, (downloadWithRetry cfgW.maxRetries envW.download 0).1 = Except.ok art
      ∧ determineWebhookConfig cfgW art.fileName = Except.ok ("https://efs.example", ty) :=
  (c7_routing_overrides_caller_destination cfgW envW rdW2 rdW (JVal.jstr "m9")
      none).2.1 "https://efs.example" rfl

end Wex
